import Mathlib

/-!
Verification of `src/llm_playground/utils.py`.

The file embeds the two utilities of the repository:

* `retry_with_exponential_backoff` / its inner closure `wrapper`: the Python
  loop `for _ in range(max_retries)` that calls `func(*args, **kwargs)`,
  classifies a raised exception by the test
  `"rate limit" in str(e).lower().replace("_", " ")`, multiplies the sleep
  time by the backoff factor and sleeps on a retryable failure, re-raises a
  non-retryable failure, and raises `Exception(f"Maximum retries ... exceeded")`
  when the loop ends.  The operation is modelled as a function from the
  caller's (bundled) arguments and the 0-based attempt index to
  `Except String α` (the attempt index stands for the hidden external state
  that makes one call succeed and another fail); float sleep durations are
  modelled as exact rationals; the observable behaviour of one invocation of
  the wrapper is the ordered trace of its effects (calls of the operation and
  sleeps) together with its outcome.

* `timestamp_str`: `datetime.now(timezone.utc).strftime("%Y-%m-%d_%H%M%S")`.
  The clock reading is modelled as an explicit `DateTime` argument, and the
  `strftime` directives `%Y` / `%m` / `%d` / `%H` / `%M` / `%S` by zero-padded
  fixed-width decimal rendering, which is their behaviour on the in-range
  field values `datetime` guarantees.
-/

/-- The format string `TIMESTAMP_FORMAT` of `utils.py`. -/
def TIMESTAMP_FORMAT : String := "%Y-%m-%d_%H%M%S"

/-- Boolean prefix test on character lists: `listHasPrefix p l` holds when
`p` is an initial segment of `l`. -/
def listHasPrefix : List Char → List Char → Bool
  | [], _ => true
  | _ :: _, [] => false
  | a :: as, b :: bs => a == b && listHasPrefix as bs

/-- Python's substring containment test (`sub in l`) on character lists:
some suffix of `l` starts with `sub`. -/
def listHasSub (sub : List Char) : List Char → Bool
  | [] => listHasPrefix sub []
  | c :: rest => listHasPrefix sub (c :: rest) || listHasSub sub rest

/-- Python's `sub in s` on strings. -/
def strContainsSub (s sub : String) : Bool :=
  listHasSub sub.data s.data

/-- Models `str(e).lower().replace("_", " ")` as applied to the exception
message: lowercase every character, then turn each underscore into a space.
(Python's `str.lower` agrees with per-character ASCII lowercasing on the
ASCII messages involved, and `.replace` of a one-character pattern is a
per-character map.) -/
def normalizeMsg (msg : String) : String :=
  String.mk ((msg.data.map Char.toLower).map (fun c => if c = '_' then ' ' else c))

/-- The classification test of `wrapper`, line 59 of `utils.py`:
`"rate limit" in str(e).lower().replace("_", " ")`. -/
def isRateLimitError (msg : String) : Bool :=
  strContainsSub (normalizeMsg msg) "rate limit"

/-- One observable effect of a run of `wrapper`: an invocation of the wrapped
operation with the (bundled) arguments it was passed, or a blocking sleep of
the given duration in seconds. -/
inductive RetryEvent (β : Type) where
  | call (args : β)
  | sleep (duration : ℚ)
deriving DecidableEq

/-- How one invocation of `wrapper` ends: returning the operation's value,
re-raising a non-retryable exception with its message, or raising the
retries-exhausted exception after the loop. -/
inductive RunOutcome (α : Type) where
  | success (value : α)
  | raised (msg : String)
  | exhausted
deriving DecidableEq

/-- The `for _ in range(max_retries)` loop body of `wrapper` (lines 55-63 of
`utils.py`), with the remaining number of loop iterations as fuel and the
0-based attempt index and current `sleep_time` as explicit state.  Each
iteration calls `func args` at the current attempt; on success it returns the
value, on a failure passing the rate-limit test it sets
`sleep_time := sleep_time * backoff_factor`, sleeps that long and continues,
and on any other failure it re-raises.  Running out of fuel is the loop
ending, after which line 65 raises the retries-exhausted exception. -/
def wrapperLoop (func : β → Nat → Except String α) (args : β) (backoff_factor : ℚ) :
    Nat → ℚ → Nat → List (RetryEvent β) × RunOutcome α
  | _, _, 0 => ([], RunOutcome.exhausted)
  | attempt, sleep_time, fuel + 1 =>
    match func args attempt with
    | Except.ok v => ([RetryEvent.call args], RunOutcome.success v)
    | Except.error msg =>
      if isRateLimitError msg then
        let rest := wrapperLoop func args backoff_factor (attempt + 1)
          (sleep_time * backoff_factor) fuel
        (RetryEvent.call args :: RetryEvent.sleep (sleep_time * backoff_factor) :: rest.1,
          rest.2)
      else
        ([RetryEvent.call args], RunOutcome.raised msg)

/-- The wrapper produced by `retry_with_exponential_backoff` (defaults in the
source: `max_retries = 20`, `initial_sleep_time = 1.0`,
`backoff_factor = 1.5`), applied to the caller's bundled arguments: the
trace of calls and sleeps of this invocation, and its outcome.  Python's
`range(max_retries)` is empty for a non-positive `max_retries`, whence
`Int.toNat`. -/
def retry_with_exponential_backoff (func : β → Nat → Except String α)
    (max_retries : Int) (initial_sleep_time backoff_factor : ℚ) :
    β → List (RetryEvent β) × RunOutcome α :=
  fun args => wrapperLoop func args backoff_factor 0 initial_sleep_time max_retries.toNat

/-- The message of the exception raised on line 65 of `utils.py`:
`f"Maximum retries {max_retries} exceeded"`. -/
def exhaustedMessage (max_retries : Int) : String :=
  "Maximum retries " ++ toString max_retries ++ " exceeded"

/-- What the caller of the wrapper observes of an outcome: the returned value,
or the message of the exception that reaches it. -/
def finalResult (max_retries : Int) : RunOutcome α → Except String α
  | RunOutcome.success v => Except.ok v
  | RunOutcome.raised msg => Except.error msg
  | RunOutcome.exhausted => Except.error (exhaustedMessage max_retries)

/-- The argument bundle of a call event, `none` for a sleep. -/
def argsOfEvent : RetryEvent β → Option β
  | RetryEvent.call a => some a
  | RetryEvent.sleep _ => none

/-- The duration of a sleep event, `none` for a call. -/
def durationOfEvent : RetryEvent β → Option ℚ
  | RetryEvent.call _ => none
  | RetryEvent.sleep d => some d

/-- The arguments of the invocations of the operation, in order. -/
def callEvents (tr : List (RetryEvent β)) : List β :=
  tr.filterMap argsOfEvent

/-- The delays slept, in order. -/
def sleepEvents (tr : List (RetryEvent β)) : List ℚ :=
  tr.filterMap durationOfEvent

/-- The trace of a run whose first `k` attempts all fail retryably, starting
from current sleep time `s`: `k` call events, each followed by the sleep that
its failure causes. -/
def expectedRetryTrace (args : β) (b : ℚ) : ℚ → Nat → List (RetryEvent β)
  | _, 0 => []
  | s, k + 1 =>
    RetryEvent.call args :: RetryEvent.sleep (s * b) :: expectedRetryTrace args b (s * b) k

lemma listHasPrefix_self_append (sub rest : List Char) :
    listHasPrefix sub (sub ++ rest) = true := by
  induction sub with
  | nil => rfl
  | cons a as ih => simp [listHasPrefix, ih]

lemma listHasSub_nil_sub (l : List Char) : listHasSub ([] : List Char) l = true := by
  induction l with
  | nil => rfl
  | cons c rest ih => simp [listHasSub, ih]

lemma listHasSub_here (sub rest : List Char) : listHasSub sub (sub ++ rest) = true := by
  cases sub with
  | nil => simpa using listHasSub_nil_sub rest
  | cons a as =>
    simp only [listHasSub, Bool.or_eq_true]
    left
    simpa using listHasPrefix_self_append (a :: as) rest

lemma listHasSub_append (p sub rest : List Char) :
    listHasSub sub (p ++ (sub ++ rest)) = true := by
  induction p with
  | nil => simpa using listHasSub_here sub rest
  | cons c cs ih => simp [listHasSub, ih]

lemma strContainsSub_middle (p mid rest : String) :
    strContainsSub (p ++ (mid ++ rest)) mid = true := by
  have h : (p ++ (mid ++ rest)).data = p.data ++ (mid.data ++ rest.data) := by
    simp
  simp only [strContainsSub, h]
  exact listHasSub_append p.data mid.data rest.data

lemma exhaustedMessage_contains (max_retries : Int) :
    strContainsSub (exhaustedMessage max_retries) (toString max_retries) = true := by
  have h : exhaustedMessage max_retries =
      "Maximum retries " ++ (toString max_retries ++ " exceeded") := by
    simp [exhaustedMessage, String.append_assoc]
  rw [h]
  exact strContainsSub_middle "Maximum retries " (toString max_retries) " exceeded"

/-- C5: an operation that succeeds on the first attempt: the wrapper performs
exactly one call, with the caller's arguments, no sleep, and returns the
operation's value unchanged. -/
theorem wrapper_first_try_success {β α : Type} (func : β → Nat → Except String α)
    (args : β) (v : α) (max_retries : Int) (initial_sleep_time backoff_factor : ℚ)
    (hpos : 0 < max_retries) (hsucc : func args 0 = Except.ok v) :
    retry_with_exponential_backoff func max_retries initial_sleep_time backoff_factor args
      = ([RetryEvent.call args], RunOutcome.success v) := by
  obtain ⟨f, hf⟩ : ∃ f, max_retries.toNat = f + 1 :=
    ⟨max_retries.toNat - 1, by omega⟩
  simp [retry_with_exponential_backoff, hf, wrapperLoop, hsucc]

/-- Witness for `wrapper_first_try_success`. -/
theorem wrapper_first_try_success_witness :
    retry_with_exponential_backoff
        (fun (_ : Unit) (_ : Nat) => (Except.ok 7 : Except String Nat)) 20 1 (3 / 2) ()
      = ([RetryEvent.call ()], RunOutcome.success 7) :=
  wrapper_first_try_success _ () 7 20 1 (3 / 2) (by decide) rfl

/-- C3: a failure that is not rate-limit-classified on the first attempt is
re-raised unmodified and immediately: the trace is a single call (attempt
count 1) with no sleep, and the caller sees exactly the original message. -/
theorem wrapper_nonretryable_propagates {β α : Type} (func : β → Nat → Except String α)
    (args : β) (msg : String) (max_retries : Int) (initial_sleep_time backoff_factor : ℚ)
    (hpos : 0 < max_retries) (hfail : func args 0 = Except.error msg)
    (hnr : isRateLimitError msg = false) :
    retry_with_exponential_backoff func max_retries initial_sleep_time backoff_factor args
        = ([RetryEvent.call args], RunOutcome.raised msg) ∧
      finalResult max_retries
        (retry_with_exponential_backoff func max_retries initial_sleep_time backoff_factor
          args).2 = Except.error msg := by
  obtain ⟨f, hf⟩ : ∃ f, max_retries.toNat = f + 1 :=
    ⟨max_retries.toNat - 1, by omega⟩
  have h : retry_with_exponential_backoff func max_retries initial_sleep_time backoff_factor
      args = ([RetryEvent.call args], RunOutcome.raised msg) := by
    simp [retry_with_exponential_backoff, hf, wrapperLoop, hfail, hnr]
  exact ⟨h, by rw [h]; rfl⟩

/-- Witness for `wrapper_nonretryable_propagates`. -/
theorem wrapper_nonretryable_propagates_witness :
    retry_with_exponential_backoff
          (fun (_ : Unit) (_ : Nat) => (Except.error "boom" : Except String Nat)) 20 1 (3 / 2)
          ()
        = ([RetryEvent.call ()], RunOutcome.raised "boom") ∧
      finalResult 20
        (retry_with_exponential_backoff
          (fun (_ : Unit) (_ : Nat) => (Except.error "boom" : Except String Nat)) 20 1 (3 / 2)
          ()).2 = Except.error "boom" :=
  wrapper_nonretryable_propagates _ () "boom" 20 1 (3 / 2) (by decide) rfl (by decide)

/-- C8: with a non-positive `max_retries` the loop body never runs: the
wrapper performs no call and no sleep and raises the retries-exhausted
exception, whose message contains the configured `max_retries`. -/
theorem wrapper_nonpositive_max_retries {β α : Type} (func : β → Nat → Except String α)
    (args : β) (max_retries : Int) (initial_sleep_time backoff_factor : ℚ)
    (hnp : max_retries ≤ 0) :
    retry_with_exponential_backoff func max_retries initial_sleep_time backoff_factor args
        = ([], RunOutcome.exhausted) ∧
      finalResult max_retries
        (retry_with_exponential_backoff func max_retries initial_sleep_time backoff_factor
          args).2 = Except.error (exhaustedMessage max_retries) ∧
      strContainsSub (exhaustedMessage max_retries) (toString max_retries) = true := by
  have hf : max_retries.toNat = 0 := by omega
  have h : retry_with_exponential_backoff func max_retries initial_sleep_time backoff_factor
      args = ([], RunOutcome.exhausted) := by
    simp [retry_with_exponential_backoff, hf, wrapperLoop]
  exact ⟨h, by rw [h]; rfl, exhaustedMessage_contains max_retries⟩

/-- Witness for `wrapper_nonpositive_max_retries`. -/
theorem wrapper_nonpositive_max_retries_witness :
    retry_with_exponential_backoff
          (fun (_ : Unit) (_ : Nat) => (Except.ok 7 : Except String Nat)) 0 1 (3 / 2) ()
        = ([], RunOutcome.exhausted) ∧
      finalResult 0
        (retry_with_exponential_backoff
          (fun (_ : Unit) (_ : Nat) => (Except.ok 7 : Except String Nat)) 0 1 (3 / 2)
          ()).2 = Except.error (exhaustedMessage 0) ∧
      strContainsSub (exhaustedMessage 0) (toString (0 : Int)) = true :=
  wrapper_nonpositive_max_retries _ () 0 1 (3 / 2) (by decide)

/-- C4: retryability is decided solely by the substring test of line 59:
`"Rate Limit exceeded"`, `"RATE_LIMIT"` and `"rate limit"` are classified
retryable, `"ratelimit"` is not and is propagated immediately by the wrapper
(one call, no sleep), while a `"RATE_LIMIT"` failure is retried (the first
call is followed by a sleep). -/
theorem classification_substring_rule :
    isRateLimitError "Rate Limit exceeded" = true ∧
      isRateLimitError "RATE_LIMIT" = true ∧
      isRateLimitError "rate limit" = true ∧
      isRateLimitError "ratelimit" = false ∧
      retry_with_exponential_backoff
          (fun (_ : Unit) (_ : Nat) => (Except.error "ratelimit" : Except String Nat)) 20 1
          (3 / 2) ()
        = ([RetryEvent.call ()], RunOutcome.raised "ratelimit") ∧
      retry_with_exponential_backoff
          (fun (_ : Unit) (_ : Nat) => (Except.error "RATE_LIMIT" : Except String Nat)) 1 1
          (3 / 2) ()
        = ([RetryEvent.call (), RetryEvent.sleep (3 / 2)], RunOutcome.exhausted) := by
  refine ⟨by decide, by decide, by decide, by decide, by decide, ?_⟩
  have hrl : isRateLimitError "RATE_LIMIT" = true := by decide
  have h1 : (1 : Int).toNat = 1 := rfl
  simp [retry_with_exponential_backoff, h1, wrapperLoop, hrl]

lemma callEvents_append (l1 l2 : List (RetryEvent β)) :
    callEvents (l1 ++ l2) = callEvents l1 ++ callEvents l2 := by
  simp [callEvents]

lemma sleepEvents_append (l1 l2 : List (RetryEvent β)) :
    sleepEvents (l1 ++ l2) = sleepEvents l1 ++ sleepEvents l2 := by
  simp [sleepEvents]

/-- A run whose `fuel` remaining attempts all fail retryably performs, in
order, `fuel` call/sleep pairs and then exhausts. -/
lemma wrapperLoop_all_retryable (func : β → Nat → Except String α) (args : β)
    (b : ℚ) (m : Nat → String) :
    ∀ fuel attempt s,
      (∀ i, i < fuel → func args (attempt + i) = Except.error (m (attempt + i))) →
      (∀ i, i < fuel → isRateLimitError (m (attempt + i)) = true) →
      wrapperLoop func args b attempt s fuel =
        (expectedRetryTrace args b s fuel, RunOutcome.exhausted) := by
  intro fuel
  induction fuel with
  | zero => intro attempt s _ _; simp [wrapperLoop, expectedRetryTrace]
  | succ f ih =>
    intro attempt s hfail hrl
    have h0 : func args attempt = Except.error (m attempt) := by
      simpa using hfail 0 (by omega)
    have hr0 : isRateLimitError (m attempt) = true := by
      simpa using hrl 0 (by omega)
    have hrest := ih (attempt + 1) (s * b)
      (fun i hi => by
        have h := hfail (i + 1) (by omega)
        rwa [show attempt + (i + 1) = attempt + 1 + i by omega] at h)
      (fun i hi => by
        have h := hrl (i + 1) (by omega)
        rwa [show attempt + (i + 1) = attempt + 1 + i by omega] at h)
    simp [wrapperLoop, h0, hr0, hrest, expectedRetryTrace]

/-- A run whose first `k` attempts fail retryably and whose next attempt
succeeds performs `k` call/sleep pairs, one final call, and returns the
value. -/
lemma wrapperLoop_retryable_then_success (func : β → Nat → Except String α)
    (args : β) (b : ℚ) (v : α) (m : Nat → String) :
    ∀ k fuel attempt s, k < fuel →
      (∀ i, i < k → func args (attempt + i) = Except.error (m (attempt + i))) →
      (∀ i, i < k → isRateLimitError (m (attempt + i)) = true) →
      func args (attempt + k) = Except.ok v →
      wrapperLoop func args b attempt s fuel =
        (expectedRetryTrace args b s k ++ [RetryEvent.call args],
          RunOutcome.success v) := by
  intro k
  induction k with
  | zero =>
    intro fuel attempt s hk _ _ hsucc
    cases fuel with
    | zero => omega
    | succ f =>
      rw [Nat.add_zero] at hsucc
      simp [wrapperLoop, hsucc, expectedRetryTrace]
  | succ k ih =>
    intro fuel attempt s hk hfail hrl hsucc
    cases fuel with
    | zero => omega
    | succ f =>
      have h0 : func args attempt = Except.error (m attempt) := by
        simpa using hfail 0 (by omega)
      have hr0 : isRateLimitError (m attempt) = true := by
        simpa using hrl 0 (by omega)
      have hrest := ih f (attempt + 1) (s * b) (by omega)
        (fun i hi => by
          have h := hfail (i + 1) (by omega)
          rwa [show attempt + (i + 1) = attempt + 1 + i by omega] at h)
        (fun i hi => by
          have h := hrl (i + 1) (by omega)
          rwa [show attempt + (i + 1) = attempt + 1 + i by omega] at h)
        (by rwa [show attempt + 1 + k = attempt + (k + 1) by omega])
      simp [wrapperLoop, h0, hr0, hrest, expectedRetryTrace]

lemma sleepEvents_expectedRetryTrace (args : β) (b : ℚ) :
    ∀ k s, sleepEvents (expectedRetryTrace args b s k) =
      (List.range k).map (fun i => s * b ^ (i + 1)) := by
  intro k
  induction k with
  | zero => intro s; simp [expectedRetryTrace, sleepEvents]
  | succ k ih =>
    intro s
    rw [List.range_succ_eq_map, List.map_cons, List.map_map]
    have hstep : sleepEvents (expectedRetryTrace args b s (k + 1)) =
        s * b :: sleepEvents (expectedRetryTrace args b (s * b) k) := by
      simp [expectedRetryTrace, sleepEvents, durationOfEvent]
    rw [hstep, ih (s * b)]
    congr 1
    · norm_num
    · refine List.map_congr_left (fun i _ => ?_)
      simp [Function.comp]
      ring

lemma callEvents_expectedRetryTrace (args : β) (b : ℚ) :
    ∀ k s, callEvents (expectedRetryTrace args b s k) = List.replicate k args := by
  intro k
  induction k with
  | zero => intro s; simp [expectedRetryTrace, callEvents]
  | succ k ih =>
    intro s
    have hstep : callEvents (expectedRetryTrace args b s (k + 1)) =
        args :: callEvents (expectedRetryTrace args b (s * b) k) := by
      simp [expectedRetryTrace, callEvents, argsOfEvent]
    rw [hstep, ih (s * b), List.replicate_succ]

lemma getLast_expectedRetryTrace (args : β) (b : ℚ) :
    ∀ k s, (expectedRetryTrace args b s (k + 1)).getLast? =
      some (RetryEvent.sleep (s * b ^ (k + 1))) := by
  intro k
  induction k with
  | zero =>
    intro s
    have h : expectedRetryTrace args b s 1 =
        [RetryEvent.call args, RetryEvent.sleep (s * b)] := rfl
    rw [h, List.getLast?_cons_cons, List.getLast?_singleton]
    norm_num
  | succ k ih =>
    intro s
    have h : expectedRetryTrace args b s (k + 2) =
        RetryEvent.call args :: RetryEvent.sleep (s * b) ::
          expectedRetryTrace args b (s * b) (k + 1) := rfl
    have h2 : expectedRetryTrace args b (s * b) (k + 1) =
        RetryEvent.call args :: RetryEvent.sleep (s * b * b) ::
          expectedRetryTrace args b (s * b * b) k := rfl
    rw [h, List.getLast?_cons_cons, h2, List.getLast?_cons_cons, ← h2, ih (s * b)]
    have harith : s * b * b ^ (k + 1) = s * b ^ (k + 1 + 1) := by ring
    rw [harith]

/-- C1: an operation that fails retryably on its first `k` attempts
(`k < max_retries`) and then succeeds: the wrapper returns the success value,
its trace is `k` call/sleep pairs followed by one final call (so the first
attempt has no preceding delay), the i-th delay is
`initial_sleep_time * backoff_factor ^ i`, and `k + 1` calls are made. -/
theorem wrapper_success_after_k_retries {β α : Type} (func : β → Nat → Except String α)
    (args : β) (v : α) (m : Nat → String) (k : Nat) (max_retries : Int)
    (initial_sleep_time backoff_factor : ℚ)
    (hk : k < max_retries.toNat)
    (hfail : ∀ i, i < k → func args i = Except.error (m i))
    (hrl : ∀ i, i < k → isRateLimitError (m i) = true)
    (hsucc : func args k = Except.ok v) :
    retry_with_exponential_backoff func max_retries initial_sleep_time backoff_factor args
        = (expectedRetryTrace args backoff_factor initial_sleep_time k
            ++ [RetryEvent.call args], RunOutcome.success v) ∧
      sleepEvents (retry_with_exponential_backoff func max_retries initial_sleep_time
          backoff_factor args).1
        = (List.range k).map (fun i => initial_sleep_time * backoff_factor ^ (i + 1)) ∧
      callEvents (retry_with_exponential_backoff func max_retries initial_sleep_time
          backoff_factor args).1 = List.replicate (k + 1) args ∧
      (retry_with_exponential_backoff func max_retries initial_sleep_time backoff_factor
          args).1.head? = some (RetryEvent.call args) := by
  have h : retry_with_exponential_backoff func max_retries initial_sleep_time
      backoff_factor args
      = (expectedRetryTrace args backoff_factor initial_sleep_time k
          ++ [RetryEvent.call args], RunOutcome.success v) := by
    apply wrapperLoop_retryable_then_success func args backoff_factor v m k
      max_retries.toNat 0 initial_sleep_time hk
    · intro i hi; simpa using hfail i hi
    · intro i hi; simpa using hrl i hi
    · simpa using hsucc
  refine ⟨h, ?_, ?_, ?_⟩
  · rw [h]
    show sleepEvents (expectedRetryTrace args backoff_factor initial_sleep_time k
      ++ [RetryEvent.call args]) = _
    rw [sleepEvents_append, sleepEvents_expectedRetryTrace]
    simp [sleepEvents, durationOfEvent]
  · rw [h]
    show callEvents (expectedRetryTrace args backoff_factor initial_sleep_time k
      ++ [RetryEvent.call args]) = _
    rw [callEvents_append, callEvents_expectedRetryTrace]
    simp [callEvents, argsOfEvent, List.replicate_succ']
  · rw [h]
    cases k with
    | zero => rfl
    | succ n => rfl

/-- Witness for `wrapper_success_after_k_retries`. -/
theorem wrapper_success_after_k_retries_witness :
    retry_with_exponential_backoff
          (fun (_ : Unit) i => if i < 2 then Except.error "rate limit" else Except.ok 7)
          20 1 (3 / 2) ()
        = (expectedRetryTrace () (3 / 2) 1 2 ++ [RetryEvent.call ()],
            RunOutcome.success 7) ∧
      sleepEvents (retry_with_exponential_backoff
          (fun (_ : Unit) i => if i < 2 then Except.error "rate limit" else Except.ok 7)
          20 1 (3 / 2) ()).1
        = (List.range 2).map (fun i => 1 * (3 / 2 : ℚ) ^ (i + 1)) ∧
      callEvents (retry_with_exponential_backoff
          (fun (_ : Unit) i => if i < 2 then Except.error "rate limit" else Except.ok 7)
          20 1 (3 / 2) ()).1 = List.replicate 3 () ∧
      (retry_with_exponential_backoff
          (fun (_ : Unit) i => if i < 2 then Except.error "rate limit" else Except.ok 7)
          20 1 (3 / 2) ()).1.head? = some (RetryEvent.call ()) :=
  wrapper_success_after_k_retries _ () 7 (fun _ => "rate limit") 2 20 1 (3 / 2)
    (by decide) (by intro i hi; interval_cases i <;> rfl) (by decide) rfl

/-- C2: an operation that fails retryably on every attempt: the wrapper makes
exactly `max_retries` calls, ends exhausted, and the caller sees the
retries-exhausted message, which is a function of the configured
`max_retries` alone (the same for every such operation, with no trace of the
individual failures) and contains the configured value. -/
theorem wrapper_exhausts_retries {β α : Type} (func : β → Nat → Except String α)
    (args : β) (m : Nat → String) (max_retries : Int)
    (initial_sleep_time backoff_factor : ℚ)
    (hfail : ∀ i, i < max_retries.toNat → func args i = Except.error (m i))
    (hrl : ∀ i, i < max_retries.toNat → isRateLimitError (m i) = true) :
    (retry_with_exponential_backoff func max_retries initial_sleep_time backoff_factor
        args).2 = RunOutcome.exhausted ∧
      (callEvents (retry_with_exponential_backoff func max_retries initial_sleep_time
          backoff_factor args).1).length = max_retries.toNat ∧
      finalResult max_retries
        (retry_with_exponential_backoff func max_retries initial_sleep_time backoff_factor
          args).2 = Except.error (exhaustedMessage max_retries) ∧
      strContainsSub (exhaustedMessage max_retries) (toString max_retries) = true := by
  have h : retry_with_exponential_backoff func max_retries initial_sleep_time
      backoff_factor args
      = (expectedRetryTrace args backoff_factor initial_sleep_time max_retries.toNat,
          RunOutcome.exhausted) := by
    apply wrapperLoop_all_retryable func args backoff_factor m max_retries.toNat 0
      initial_sleep_time
    · intro i hi; simpa using hfail i hi
    · intro i hi; simpa using hrl i hi
  refine ⟨by rw [h], ?_, by rw [h]; rfl, exhaustedMessage_contains max_retries⟩
  rw [h]
  show (callEvents (expectedRetryTrace args backoff_factor initial_sleep_time
    max_retries.toNat)).length = _
  rw [callEvents_expectedRetryTrace]
  simp

/-- Witness for `wrapper_exhausts_retries`. -/
theorem wrapper_exhausts_retries_witness :
    (retry_with_exponential_backoff
        (fun (_ : Unit) (_ : Nat) => (Except.error "rate limit" : Except String Nat))
        3 1 (3 / 2) ()).2 = RunOutcome.exhausted ∧
      (callEvents (retry_with_exponential_backoff
          (fun (_ : Unit) (_ : Nat) => (Except.error "rate limit" : Except String Nat))
          3 1 (3 / 2) ()).1).length = (3 : Int).toNat ∧
      finalResult 3
        (retry_with_exponential_backoff
          (fun (_ : Unit) (_ : Nat) => (Except.error "rate limit" : Except String Nat))
          3 1 (3 / 2) ()).2 = Except.error (exhaustedMessage 3) ∧
      strContainsSub (exhaustedMessage 3) (toString (3 : Int)) = true :=
  wrapper_exhausts_retries _ () (fun _ => "rate limit") 3 1 (3 / 2)
    (by intro i hi; rfl) (by decide)

/-- C9: an operation that fails retryably on every attempt: the wrapper
sleeps after every failure, the final one included — the trace is
`max_retries` call/sleep pairs, there are exactly `max_retries` delays with
the i-th equal to `initial_sleep_time * backoff_factor ^ i`, and (when at
least one attempt runs) the last event of the trace is the last sleep, so no
call follows it before the exhausted outcome. -/
theorem wrapper_sleeps_after_every_failure {β α : Type} (func : β → Nat → Except String α)
    (args : β) (m : Nat → String) (max_retries : Int)
    (initial_sleep_time backoff_factor : ℚ)
    (hfail : ∀ i, i < max_retries.toNat → func args i = Except.error (m i))
    (hrl : ∀ i, i < max_retries.toNat → isRateLimitError (m i) = true) :
    (retry_with_exponential_backoff func max_retries initial_sleep_time backoff_factor
        args).1
        = expectedRetryTrace args backoff_factor initial_sleep_time max_retries.toNat ∧
      sleepEvents (retry_with_exponential_backoff func max_retries initial_sleep_time
          backoff_factor args).1
        = (List.range max_retries.toNat).map
            (fun i => initial_sleep_time * backoff_factor ^ (i + 1)) ∧
      (sleepEvents (retry_with_exponential_backoff func max_retries initial_sleep_time
          backoff_factor args).1).length = max_retries.toNat ∧
      (retry_with_exponential_backoff func max_retries initial_sleep_time backoff_factor
          args).2 = RunOutcome.exhausted ∧
      (∀ n, max_retries.toNat = n + 1 →
        (retry_with_exponential_backoff func max_retries initial_sleep_time backoff_factor
            args).1.getLast?
          = some (RetryEvent.sleep (initial_sleep_time * backoff_factor ^ (n + 1)))) := by
  have h : retry_with_exponential_backoff func max_retries initial_sleep_time
      backoff_factor args
      = (expectedRetryTrace args backoff_factor initial_sleep_time max_retries.toNat,
          RunOutcome.exhausted) := by
    apply wrapperLoop_all_retryable func args backoff_factor m max_retries.toNat 0
      initial_sleep_time
    · intro i hi; simpa using hfail i hi
    · intro i hi; simpa using hrl i hi
  refine ⟨by rw [h], ?_, ?_, by rw [h], ?_⟩
  · rw [h]
    exact sleepEvents_expectedRetryTrace args backoff_factor max_retries.toNat
      initial_sleep_time
  · rw [h]
    show (sleepEvents (expectedRetryTrace args backoff_factor initial_sleep_time
      max_retries.toNat)).length = _
    rw [sleepEvents_expectedRetryTrace]
    simp
  · intro n hn
    rw [h]
    show (expectedRetryTrace args backoff_factor initial_sleep_time
      max_retries.toNat).getLast? = _
    rw [hn]
    exact getLast_expectedRetryTrace args backoff_factor n initial_sleep_time

/-- Witness for `wrapper_sleeps_after_every_failure`. -/
theorem wrapper_sleeps_after_every_failure_witness :
    (retry_with_exponential_backoff
        (fun (_ : Unit) (_ : Nat) => (Except.error "RATE_LIMIT" : Except String Nat))
        2 1 (3 / 2) ()).1
        = expectedRetryTrace () (3 / 2) 1 (2 : Int).toNat ∧
      sleepEvents (retry_with_exponential_backoff
          (fun (_ : Unit) (_ : Nat) => (Except.error "RATE_LIMIT" : Except String Nat))
          2 1 (3 / 2) ()).1
        = (List.range (2 : Int).toNat).map (fun i => 1 * (3 / 2 : ℚ) ^ (i + 1)) ∧
      (sleepEvents (retry_with_exponential_backoff
          (fun (_ : Unit) (_ : Nat) => (Except.error "RATE_LIMIT" : Except String Nat))
          2 1 (3 / 2) ()).1).length = (2 : Int).toNat ∧
      (retry_with_exponential_backoff
          (fun (_ : Unit) (_ : Nat) => (Except.error "RATE_LIMIT" : Except String Nat))
          2 1 (3 / 2) ()).2 = RunOutcome.exhausted ∧
      (∀ n, (2 : Int).toNat = n + 1 →
        (retry_with_exponential_backoff
            (fun (_ : Unit) (_ : Nat) => (Except.error "RATE_LIMIT" : Except String Nat))
            2 1 (3 / 2) ()).1.getLast?
          = some (RetryEvent.sleep (1 * (3 / 2 : ℚ) ^ (n + 1)))) :=
  wrapper_sleeps_after_every_failure _ () (fun _ => "RATE_LIMIT") 2 1 (3 / 2)
    (by intro i hi; rfl) (by decide)

lemma callEvents_wrapperLoop_mem (func : β → Nat → Except String α) (args : β) (b : ℚ) :
    ∀ fuel attempt s x,
      x ∈ callEvents (wrapperLoop func args b attempt s fuel).1 → x = args := by
  intro fuel
  induction fuel with
  | zero => intro attempt s x hx; simp [wrapperLoop, callEvents] at hx
  | succ f ih =>
    intro attempt s x hx
    cases hcall : func args attempt with
    | ok v =>
      simp [wrapperLoop, hcall, callEvents, argsOfEvent] at hx
      exact hx
    | error msg =>
      cases hr : isRateLimitError msg with
      | false =>
        simp [wrapperLoop, hcall, hr, callEvents, argsOfEvent] at hx
        exact hx
      | true =>
        simp only [wrapperLoop, hcall, hr, if_true, callEvents, List.filterMap_cons,
          argsOfEvent] at hx
        simp at hx
        rcases hx with h | h
        · exact h
        · exact ih (attempt + 1) (s * b) x (by simpa [callEvents] using h)

/-- C10: every invocation of the operation in one run of the wrapper — the
first attempt and every retry — receives exactly the argument bundle the
caller supplied: the list of per-call arguments is constant. -/
theorem wrapper_forwards_same_args {β α : Type} (func : β → Nat → Except String α)
    (args : β) (max_retries : Int) (initial_sleep_time backoff_factor : ℚ) :
    callEvents (retry_with_exponential_backoff func max_retries initial_sleep_time
        backoff_factor args).1
      = List.replicate
          (callEvents (retry_with_exponential_backoff func max_retries initial_sleep_time
            backoff_factor args).1).length args :=
  List.eq_replicate_iff.mpr
    ⟨rfl, fun x hx => callEvents_wrapperLoop_mem func args backoff_factor
      max_retries.toNat 0 initial_sleep_time x hx⟩

/-- A clock reading at one-second resolution, the fields
`datetime.datetime.now(datetime.timezone.utc)` exposes to
`strftime("%Y-%m-%d_%H%M%S")`. -/
structure DateTime where
  year : Nat
  month : Nat
  day : Nat
  hour : Nat
  minute : Nat
  second : Nat
deriving DecidableEq

/-- The decimal digit character for `n ≤ 9`. -/
def digitChar (n : Nat) : Char := Char.ofNat (48 + n)

/-- Zero-padded two-digit decimal rendering: the `strftime` directives
`%m`, `%d`, `%H`, `%M`, `%S` on their in-range values. -/
def pad2 (n : Nat) : List Char := [digitChar (n / 10), digitChar (n % 10)]

/-- Zero-padded four-digit decimal rendering: the `strftime` directive `%Y`
on the years `1..9999` that `datetime` produces. -/
def pad4 (n : Nat) : List Char := pad2 (n / 100) ++ pad2 (n % 100)

/-- The characters of `strftime("%Y-%m-%d_%H%M%S")` applied to one clock
reading. -/
def timestampChars (t : DateTime) : List Char :=
  pad4 t.year ++ '-' :: (pad2 t.month ++ '-' :: (pad2 t.day ++ '_' ::
    (pad2 t.hour ++ (pad2 t.minute ++ pad2 t.second))))

/-- `timestamp_str` of `utils.py`, with the clock reading explicit. -/
def timestamp_str (t : DateTime) : String := String.mk (timestampChars t)

/-- The field ranges `datetime.datetime` guarantees (`MINYEAR = 1`,
`MAXYEAR = 9999`). -/
abbrev ValidDateTime (t : DateTime) : Prop :=
  1 ≤ t.year ∧ t.year ≤ 9999 ∧ 1 ≤ t.month ∧ t.month ≤ 12 ∧ 1 ≤ t.day ∧ t.day ≤ 31 ∧
    t.hour ≤ 23 ∧ t.minute ≤ 59 ∧ t.second ≤ 59

/-- The instant a clock reading denotes, at one-second resolution: the
fields packed most-significant first, so that for valid readings the order
of these numbers is the chronological order. -/
def DateTime.instant (t : DateTime) : Nat :=
  ((((t.year * 100 + t.month) * 100 + t.day) * 100 + t.hour) * 100 + t.minute) * 100
    + t.second

/-- The character at position `i` is a decimal digit (a space, never a digit,
stands in for an absent position). -/
def isDigitAt (l : List Char) (i : Nat) : Bool := (l.getD i ' ').isDigit

/-- The fixed pattern `YYYY-MM-DD_HHMMSS`: 17 characters, digits everywhere
except a hyphen at positions 4 and 7 and an underscore at position 10. -/
def isTimestampShape (s : String) : Bool :=
  s.data.length == 17 &&
    isDigitAt s.data 0 && isDigitAt s.data 1 && isDigitAt s.data 2 && isDigitAt s.data 3 &&
    (s.data.getD 4 ' ' == '-') &&
    isDigitAt s.data 5 && isDigitAt s.data 6 &&
    (s.data.getD 7 ' ' == '-') &&
    isDigitAt s.data 8 && isDigitAt s.data 9 &&
    (s.data.getD 10 ' ' == '_') &&
    isDigitAt s.data 11 && isDigitAt s.data 12 && isDigitAt s.data 13 &&
    isDigitAt s.data 14 && isDigitAt s.data 15 && isDigitAt s.data 16

lemma digitChar_isDigit {n : Nat} (h : n ≤ 9) : (digitChar n).isDigit = true := by
  interval_cases n <;> decide

/-- C6: on every clock reading `datetime` can produce, `timestamp_str`
matches the fixed pattern `YYYY-MM-DD_HHMMSS`: a 4-digit year, 2-digit
month and day separated by hyphens, a literal underscore, then 6 digits for
hour, minute, second. -/
theorem timestamp_str_shape (t : DateTime) (hv : ValidDateTime t) :
    isTimestampShape (timestamp_str t) = true := by
  obtain ⟨hy1, hy2, hm1, hm2, hd1, hd2, hh, hmi, hs⟩ := hv
  have c0 : (digitChar (t.year / 100 / 10)).isDigit = true := digitChar_isDigit (by omega)
  have c1 : (digitChar (t.year / 100 % 10)).isDigit = true := digitChar_isDigit (by omega)
  have c2 : (digitChar (t.year % 100 / 10)).isDigit = true := digitChar_isDigit (by omega)
  have c3 : (digitChar (t.year % 100 % 10)).isDigit = true := digitChar_isDigit (by omega)
  have c5 : (digitChar (t.month / 10)).isDigit = true := digitChar_isDigit (by omega)
  have c6 : (digitChar (t.month % 10)).isDigit = true := digitChar_isDigit (by omega)
  have c8 : (digitChar (t.day / 10)).isDigit = true := digitChar_isDigit (by omega)
  have c9 : (digitChar (t.day % 10)).isDigit = true := digitChar_isDigit (by omega)
  have c11 : (digitChar (t.hour / 10)).isDigit = true := digitChar_isDigit (by omega)
  have c12 : (digitChar (t.hour % 10)).isDigit = true := digitChar_isDigit (by omega)
  have c13 : (digitChar (t.minute / 10)).isDigit = true := digitChar_isDigit (by omega)
  have c14 : (digitChar (t.minute % 10)).isDigit = true := digitChar_isDigit (by omega)
  have c15 : (digitChar (t.second / 10)).isDigit = true := digitChar_isDigit (by omega)
  have c16 : (digitChar (t.second % 10)).isDigit = true := digitChar_isDigit (by omega)
  simp [isTimestampShape, timestamp_str, timestampChars, pad4, pad2, isDigitAt,
    List.getD, c0, c1, c2, c3, c5, c6, c8, c9, c11, c12, c13, c14, c15, c16]

/-- Witness for `timestamp_str_shape`. -/
theorem timestamp_str_shape_witness :
    isTimestampShape (timestamp_str (DateTime.mk 2024 3 7 14 23 5)) = true :=
  timestamp_str_shape (DateTime.mk 2024 3 7 14 23 5) (by decide)

lemma digitChar_lt {a b : Nat} (hab : a < b) (hb : b ≤ 9) : digitChar a < digitChar b := by
  have ha : a ≤ 9 := by omega
  interval_cases a <;> interval_cases b <;> decide

/-- A strict lexicographic step on a prefix of fixed width extends to the
whole lists. -/
lemma lex_append_of_lex {r : Char → Char → Prop} {as bs : List Char}
    (h : List.Lex r as bs) (hlen : as.length = bs.length) (cs ds : List Char) :
    List.Lex r (as ++ cs) (bs ++ ds) := by
  induction h with
  | nil => simp at hlen
  | rel hr => exact List.Lex.rel hr
  | cons _ ih => exact List.Lex.cons (ih (by simpa using hlen))

lemma pad2_lt {a b : Nat} (hab : a < b) (hb : b ≤ 99) :
    List.Lex (· < ·) (pad2 a) (pad2 b) := by
  rcases Nat.lt_or_ge (a / 10) (b / 10) with h | h
  · exact List.Lex.rel (digitChar_lt h (by omega))
  · have h10 : a / 10 = b / 10 := by omega
    have hm : a % 10 < b % 10 := by omega
    show List.Lex (· < ·) [digitChar (a / 10), digitChar (a % 10)]
      [digitChar (b / 10), digitChar (b % 10)]
    rw [h10]
    exact List.Lex.cons (List.Lex.rel (digitChar_lt hm (by omega)))

lemma pad4_lt {a b : Nat} (hab : a < b) (hb : b ≤ 9999) :
    List.Lex (· < ·) (pad4 a) (pad4 b) := by
  rcases Nat.lt_or_ge (a / 100) (b / 100) with h | h
  · exact lex_append_of_lex (pad2_lt h (by omega)) rfl _ _
  · have h100 : a / 100 = b / 100 := by omega
    have hm : a % 100 < b % 100 := by omega
    show List.Lex (· < ·) (pad2 (a / 100) ++ pad2 (a % 100))
      (pad2 (b / 100) ++ pad2 (b % 100))
    rw [h100]
    exact List.Lex.append_left _ (pad2_lt hm (by omega)) _

lemma timestampChars_lex {t1 t2 : DateTime} (h1 : ValidDateTime t1)
    (h2 : ValidDateTime t2) (hlt : t1.instant < t2.instant) :
    List.Lex (· < ·) (timestampChars t1) (timestampChars t2) := by
  obtain ⟨hy1, hy2, hm1, hm2, hd1, hd2, hh, hmi, hs⟩ := h1
  obtain ⟨ky1, ky2, km1, km2, kd1, kd2, kh, kmi, ks⟩ := h2
  have hdisj : t1.year < t2.year ∨ (t1.year = t2.year ∧ (t1.month < t2.month ∨
      (t1.month = t2.month ∧ (t1.day < t2.day ∨ (t1.day = t2.day ∧
      (t1.hour < t2.hour ∨ (t1.hour = t2.hour ∧ (t1.minute < t2.minute ∨
      (t1.minute = t2.minute ∧ t1.second < t2.second))))))))) := by
    simp only [DateTime.instant] at hlt
    omega
  show List.Lex (· < ·)
    (pad4 t1.year ++ '-' :: (pad2 t1.month ++ '-' :: (pad2 t1.day ++ '_' ::
      (pad2 t1.hour ++ (pad2 t1.minute ++ pad2 t1.second)))))
    (pad4 t2.year ++ '-' :: (pad2 t2.month ++ '-' :: (pad2 t2.day ++ '_' ::
      (pad2 t2.hour ++ (pad2 t2.minute ++ pad2 t2.second)))))
  rcases hdisj with hy | ⟨hy, hrest⟩
  · exact lex_append_of_lex (pad4_lt hy (by omega)) rfl _ _
  rw [hy]
  refine List.Lex.append_left _ (List.Lex.cons ?_) _
  rcases hrest with hmo | ⟨hmo, hrest⟩
  · exact lex_append_of_lex (pad2_lt hmo (by omega)) rfl _ _
  rw [hmo]
  refine List.Lex.append_left _ (List.Lex.cons ?_) _
  rcases hrest with hd | ⟨hd, hrest⟩
  · exact lex_append_of_lex (pad2_lt hd (by omega)) rfl _ _
  rw [hd]
  refine List.Lex.append_left _ (List.Lex.cons ?_) _
  rcases hrest with hho | ⟨hho, hrest⟩
  · exact lex_append_of_lex (pad2_lt hho (by omega)) rfl _ _
  rw [hho]
  refine List.Lex.append_left _ ?_ _
  rcases hrest with hmin | ⟨hmin, hsec⟩
  · exact lex_append_of_lex (pad2_lt hmin (by omega)) rfl _ _
  rw [hmin]
  exact List.Lex.append_left _ (pad2_lt hsec (by omega)) _

/-- C7: for clock readings `t1`, `t2` with `t1` no later than `t2` (at
one-second resolution), the timestamp string of `t1` is lexicographically at
most that of `t2`: `timestamp_str` is non-decreasing in real time, so the
identifiers sort chronologically. -/
theorem timestamp_str_mono (t1 t2 : DateTime) (h1 : ValidDateTime t1)
    (h2 : ValidDateTime t2) (hle : t1.instant ≤ t2.instant) :
    timestamp_str t1 ≤ timestamp_str t2 := by
  rcases Nat.lt_or_ge t1.instant t2.instant with hlt | hge
  · have hlex := timestampChars_lex h1 h2 hlt
    have hstr : timestamp_str t1 < timestamp_str t2 := by
      rw [String.lt_iff_toList_lt]
      exact hlex
    exact le_of_lt hstr
  · have heq : t1.instant = t2.instant := by omega
    obtain ⟨hy1, hy2, hm1, hm2, hd1, hd2, hh, hmi, hs⟩ := h1
    obtain ⟨ky1, ky2, km1, km2, kd1, kd2, kh, kmi, ks⟩ := h2
    have hy : t1.year = t2.year := by simp only [DateTime.instant] at heq; omega
    have hmo : t1.month = t2.month := by simp only [DateTime.instant] at heq; omega
    have hda : t1.day = t2.day := by simp only [DateTime.instant] at heq; omega
    have hho : t1.hour = t2.hour := by simp only [DateTime.instant] at heq; omega
    have hmin : t1.minute = t2.minute := by simp only [DateTime.instant] at heq; omega
    have hsec : t1.second = t2.second := by simp only [DateTime.instant] at heq; omega
    have : timestamp_str t1 = timestamp_str t2 := by
      simp only [timestamp_str, timestampChars, hy, hmo, hda, hho, hmin, hsec]
    exact le_of_eq this

/-- Witness for `timestamp_str_mono`. -/
theorem timestamp_str_mono_witness :
    timestamp_str (DateTime.mk 2024 3 7 14 23 5)
      ≤ timestamp_str (DateTime.mk 2024 3 7 14 23 6) :=
  timestamp_str_mono (DateTime.mk 2024 3 7 14 23 5) (DateTime.mk 2024 3 7 14 23 6)
    (by decide) (by decide) (by decide)
